import Mathlib

/-!
Shallow embedding of the core of the `shift-patient-care` repository
(per-feed health state machine, scene probe, behavioral fall detector,
incident lifecycle) together with proofs about its behaviour.

Modelling conventions:
* JavaScript numbers are modelled as exact rationals (`ℚ`); timestamps
  (`Date.now()`) as integers (`ℤ`, milliseconds).
* Each timer callback / event listener becomes an explicit step function on
  an explicit state record; callback invocations (`onHealth`, `onChange`,
  `onResult`, `setAi`) become elements of an emitted output list.
* `window.setInterval` / `clearInterval` and listener (un)registration are
  modelled by flags (`disposed`, `stopped`) consulted exactly where the
  source consults them.
-/

namespace PatientCare

/-! ## Severity and incidents (src/lib/severity.ts, src/types.ts, src/App.tsx) -/

inductive Severity
  | none | watch | risk | critical
deriving DecidableEq

inductive IncidentType
  | FALL | INACTIVITY
deriving DecidableEq

/-- `severityRank` from src/lib/severity.ts. -/
def severityRank : Severity → ℤ
  | .critical => 3
  | .risk => 2
  | .watch => 1
  | .none => 0

/-- The total order `none < watch < risk < critical` as the spec words it
(used to compare against the rank function the code uses). -/
def sevLtSpec : Severity → Severity → Prop
  | .none, .watch | .none, .risk | .none, .critical => True
  | .watch, .risk | .watch, .critical => True
  | .risk, .critical => True
  | _, _ => False

instance : DecidablePred (fun p : Severity × Severity => sevLtSpec p.1 p.2) := by
  intro p
  rcases p with ⟨a, b⟩
  cases a <;> cases b <;> simp [sevLtSpec] <;> infer_instance

/-- `Incident` from src/types.ts (fields relevant to the lifecycle logic;
`clipUrl`, `frames` and `hr` are evidence payloads never read by
`upsertIncident`/`sortInbox` and are omitted). -/
structure Incident where
  id : String
  cameraId : String
  cameraName : String
  type : IncidentType
  severity : Severity
  confidence : ℚ
  createdAt : ℤ
  acked : Bool
  eventTimeSec : Option ℚ
  reasons : List String
deriving DecidableEq

/-- The comparator body of `sortInbox` in src/App.tsx (a JS comparator
returning a signed number). -/
def inboxCmp (a b : Incident) : ℤ :=
  if a.acked ≠ b.acked then (if a.acked then 1 else -1)
  else
    let sr := severityRank b.severity - severityRank a.severity
    if sr ≠ 0 then sr else b.createdAt - a.createdAt

/-- `sortInbox` from src/App.tsx: sorts a copy of the list with the
comparator (JS `Array.prototype.sort` is a stable comparison sort; we model
it with a stable insertion sort over `inboxCmp ≤ 0`). -/
def sortInbox (l : List Incident) : List Incident :=
  List.insertionSort (fun a b => inboxCmp a b ≤ 0) l

/-- The predicate `p.cameraId === next.cameraId && p.type === next.type`
used by `findIndex` inside `upsertIncident` (src/App.tsx). -/
def sameKey (next p : Incident) : Bool :=
  decide (p.cameraId = next.cameraId ∧ p.type = next.type)

/-- The merged record `{...existing, ...next, severity: max, acked: false,
createdAt: Date.now()}` built by `upsertIncident` (src/App.tsx): the spread
of `next` replaces every field, then severity / acked / createdAt are
overridden. -/
def mergeIncident (now : ℤ) (existing next : Incident) : Incident :=
  { next with
    severity :=
      if severityRank existing.severity < severityRank next.severity then
        next.severity
      else existing.severity
    acked := false
    createdAt := now }

/-- Replacement of the first matching element, as done by
`copy[idx] = ...` at the `findIndex` position. -/
def upsertReplace (now : ℤ) (next : Incident) : List Incident → List Incident
  | [] => []
  | p :: rest =>
    if sameKey next p then mergeIncident now p next :: rest
    else p :: upsertReplace now next rest

/-- `upsertIncident` from src/App.tsx: update the first incident with the
same `(cameraId, type)` key in place, otherwise prepend the new one. -/
def upsertIncident (now : ℤ) (next : Incident) (prev : List Incident) :
    List Incident :=
  if prev.any (sameKey next) then upsertReplace now next prev
  else next :: prev

/-- At most one active incident per `(cameraId, type)` key. -/
def uniqueKeys (l : List Incident) : Prop :=
  l.Pairwise (fun p q => ¬(p.cameraId = q.cameraId ∧ p.type = q.type))

/-- The `(cameraId, type)` key of an incident. -/
def keyOf (i : Incident) : String × IncidentType :=
  (i.cameraId, i.type)

/-- The inbox order the spec describes: unacknowledged first, then severity
descending, then `createdAt` descending. -/
def inboxBefore (a b : Incident) : Prop :=
  (a.acked = false ∧ b.acked = true) ∨
  (a.acked = b.acked ∧ severityRank b.severity < severityRank a.severity) ∨
  (a.acked = b.acked ∧ severityRank a.severity = severityRank b.severity ∧
    b.createdAt ≤ a.createdAt)

lemma inboxCmp_le_iff (a b : Incident) : inboxCmp a b ≤ 0 ↔
    ((a.acked = false ∧ b.acked = true) ∨
      (a.acked = b.acked ∧
        (severityRank b.severity < severityRank a.severity ∨
          (severityRank a.severity = severityRank b.severity ∧
            b.createdAt ≤ a.createdAt)))) := by
  unfold inboxCmp
  cases hA : a.acked <;> cases hB : b.acked <;>
    simp only [hA, hB, ne_eq, reduceCtorEq, not_false_eq_true,
      not_true_eq_false, if_true, if_false, false_and, and_false, true_and,
      and_true, false_or, or_false] <;>
    try (by_cases hsr :
          severityRank b.severity - severityRank a.severity = 0 <;>
        simp only [hsr, not_true_eq_false, not_false_eq_true, if_true,
          if_false] <;>
        omega)
  · simp
  · simp

lemma inboxCmp_le_total (a b : Incident) :
    inboxCmp a b ≤ 0 ∨ inboxCmp b a ≤ 0 := by
  rw [inboxCmp_le_iff, inboxCmp_le_iff]
  cases hA : a.acked <;> cases hB : b.acked <;> simp <;> omega

lemma inboxCmp_le_trans {a b c : Incident}
    (hab : inboxCmp a b ≤ 0) (hbc : inboxCmp b c ≤ 0) : inboxCmp a c ≤ 0 := by
  rw [inboxCmp_le_iff] at hab hbc ⊢
  rcases hab with ⟨ha, hb⟩ | ⟨hab1, hab2⟩ <;>
    rcases hbc with ⟨hb2, hc⟩ | ⟨hbc1, hbc2⟩
  · rw [hb] at hb2; exact absurd hb2 (by simp)
  · exact Or.inl ⟨ha, hbc1 ▸ hb⟩
  · exact Or.inl ⟨hab1.trans hb2, hc⟩
  · exact Or.inr ⟨hab1.trans hbc1, by omega⟩

lemma inboxCmp_le_before {a b : Incident} (h : inboxCmp a b ≤ 0) :
    inboxBefore a b := by
  rw [inboxCmp_le_iff] at h
  unfold inboxBefore
  tauto

/-- Sample incidents from the spec's test vector for `sortForInbox`. -/
def exAckedCritical : Incident :=
  { id := "i1", cameraId := "cam1", cameraName := "Room 1", type := .FALL,
    severity := .critical, confidence := 9/10, createdAt := 100,
    acked := true, eventTimeSec := Option.none, reasons := [] }

def exUnackedWatch : Incident :=
  { id := "i2", cameraId := "cam2", cameraName := "Room 2", type := .FALL,
    severity := .watch, confidence := 5/10, createdAt := 50,
    acked := false, eventTimeSec := Option.none, reasons := [] }

/-- C5: `sortInbox` orders unacknowledged incidents before acknowledged
ones, then by severity descending under the order
`none < watch < risk < critical` (which `severityRank` realises), then by
`createdAt` descending; it permutes its input; in particular an
unacknowledged watch incident sorts before an acknowledged critical one. -/
theorem claim5_sortInbox :
    (∀ s t : Severity, sevLtSpec s t ↔ severityRank s < severityRank t) ∧
    (∀ l : List Incident,
      (sortInbox l).Sorted inboxBefore ∧ (sortInbox l).Perm l) ∧
    sortInbox [exAckedCritical, exUnackedWatch] =
      [exUnackedWatch, exAckedCritical] := by
  refine ⟨?_, ?_, ?_⟩
  · intro s t
    cases s <;> cases t <;> simp [sevLtSpec, severityRank]
  · intro l
    constructor
    · letI : IsTotal Incident (fun a b => inboxCmp a b ≤ 0) :=
        ⟨fun a b => inboxCmp_le_total a b⟩
      letI : IsTrans Incident (fun a b => inboxCmp a b ≤ 0) :=
        ⟨fun _ _ _ hab hbc => inboxCmp_le_trans hab hbc⟩
      exact (List.sorted_insertionSort _ l).imp fun h => inboxCmp_le_before h
    · exact List.perm_insertionSort _ l
  · rfl

lemma upsertReplace_append (now : ℤ) (next : Incident) (pre post : List Incident)
    (h : ∀ q ∈ pre, sameKey next q = false) :
    upsertReplace now next (pre ++ post) = pre ++ upsertReplace now next post := by
  induction pre with
  | nil => simp
  | cons q rest ih =>
    have hq := h q (List.mem_cons_self q rest)
    simp only [List.cons_append, upsertReplace, hq, Bool.false_eq_true,
      if_false, List.cons.injEq, true_and]
    exact ih fun r hr => h r (List.mem_cons_of_mem q hr)

lemma keyOf_mergeIncident (now : ℤ) (p next : Incident)
    (h : sameKey next p = true) : keyOf (mergeIncident now p next) = keyOf p := by
  have h' := of_decide_eq_true h
  simp [keyOf, mergeIncident, h'.1, h'.2]

lemma map_keyOf_upsertReplace (now : ℤ) (next : Incident) (l : List Incident) :
    (upsertReplace now next l).map keyOf = l.map keyOf := by
  induction l with
  | nil => rfl
  | cons p rest ih =>
    by_cases h : sameKey next p = true
    · simp [upsertReplace, h, keyOf_mergeIncident now p next h]
    · simp only [Bool.not_eq_true] at h
      simp [upsertReplace, h, ih]

lemma uniqueKeys_iff (l : List Incident) :
    uniqueKeys l ↔ (l.map keyOf).Pairwise (fun a b => a ≠ b) := by
  rw [uniqueKeys, List.pairwise_map]
  refine List.Pairwise.iff (fun {p q} => ?_)
  simp [keyOf, Prod.ext_iff, not_and]

/-- C3: `upsertIncident` merges an incoming incident into the first active
incident with the same `(cameraId, type)` key in place: severity becomes
the rank-maximum of the existing and incoming severities, confidence /
reasons / event-time offset are replaced by the incoming values,
`acked` resets to false and `createdAt` to the current time, and the
rest of the list is untouched; and `upsertIncident` preserves the
invariant that at most one active incident exists per key. -/
theorem claim3_upsert :
    (∀ (now : ℤ) (existing next : Incident),
      let m := mergeIncident now existing next
      m.confidence = next.confidence ∧
      m.reasons = next.reasons ∧
      m.eventTimeSec = next.eventTimeSec ∧
      m.acked = false ∧
      m.createdAt = now ∧
      severityRank m.severity =
        max (severityRank existing.severity) (severityRank next.severity) ∧
      (m.severity = existing.severity ∨ m.severity = next.severity)) ∧
    (∀ (now : ℤ) (next : Incident) (pre post : List Incident) (p : Incident),
      (∀ q ∈ pre, sameKey next q = false) → sameKey next p = true →
      upsertIncident now next (pre ++ p :: post) =
        pre ++ mergeIncident now p next :: post) ∧
    (∀ (now : ℤ) (next : Incident) (prev : List Incident),
      uniqueKeys prev → uniqueKeys (upsertIncident now next prev)) := by
  refine ⟨?_, ?_, ?_⟩
  · intro now existing next
    refine ⟨rfl, rfl, rfl, rfl, rfl, ?_, ?_⟩
    · unfold mergeIncident
      dsimp only
      split <;> omega
    · unfold mergeIncident
      dsimp only
      split
      · exact Or.inr rfl
      · exact Or.inl rfl
  · intro now next pre post p hpre hp
    have hany : (pre ++ p :: post).any (sameKey next) = true := by
      simp [List.any_append, hp]
    rw [upsertIncident, if_pos hany,
      upsertReplace_append now next pre (p :: post) hpre]
    simp [upsertReplace, hp]
  · intro now next prev hu
    unfold upsertIncident
    split
    · rw [uniqueKeys_iff] at hu ⊢
      rw [map_keyOf_upsertReplace]
      exact hu
    · rename_i hnone
      rw [List.any_eq_true] at hnone
      push_neg at hnone
      rw [uniqueKeys] at hu ⊢
      refine List.Pairwise.cons ?_ hu
      intro q hq hkey
      have := hnone q hq
      simp only [sameKey, ne_eq, decide_eq_true_eq] at this
      exact this ⟨hkey.1.symm, hkey.2.symm⟩

/-- Sample incoming incident sharing a key with `exAckedCritical`. -/
def exRetrigger : Incident :=
  { id := "i3", cameraId := "cam1", cameraName := "Room 1", type := .FALL,
    severity := .watch, confidence := 4/10, createdAt := 300,
    acked := false, eventTimeSec := some 7, reasons := ["drop:0.20"] }

/-- Witness for C3 at a concrete input: re-triggering an existing
`(cam1, FALL)` incident updates it in place. -/
theorem claim3_upsert_witness :
    upsertIncident 400 exRetrigger [exAckedCritical] =
      [mergeIncident 400 exAckedCritical exRetrigger] := by
  have h := claim3_upsert.2.1 400 exRetrigger [] [] exAckedCritical
    (by intro q hq; simp at hq) (by decide)
  simpa using h

/-! ## Health Monitor (src/lib/videoProbe.ts)

`attachVideoProbe` installs transport listeners, a 400ms frozen watchdog
and an optional pixel sampler.  Each of those callbacks becomes a step
function below; the `details` snapshot payload is never read by any
transition (dedup compares `state` and `reason` only) and is omitted. -/

inductive HState
  | ok | buffering | frozen | black | error
deriving DecidableEq

/-- `StreamHealth` (state, sinceMs, reason). -/
structure Health where
  state : HState
  sinceMs : ℤ
  reason : String
deriving DecidableEq

/-- `VideoProbeOptions` with the source defaults. -/
structure ProbeOpts where
  frozenSeconds : ℕ := 8
  enablePixelProbe : Bool := false
  sampleEveryMs : ℕ := 800
  blackLumaThreshold : ℚ := 18
  blackRatioThreshold : ℚ := 92/100
  blackConsecutive : ℕ := 2
deriving DecidableEq

/-- The mutable closure state of one `attachVideoProbe` call. -/
structure ProbeState where
  disposed : Bool
  health : Health
  lastTime : ℚ
  lastProgressAt : ℤ
  blackStreak : ℕ
  pixelDisabled : Bool
deriving DecidableEq

/-- `mediaErrorText` from src/lib/videoProbe.ts (`code ?? 0`). -/
def mediaErrorText (code : Option ℤ) : String :=
  if code.getD 0 = 1 then "ABORTED"
  else if code.getD 0 = 2 then "NETWORK"
  else if code.getD 0 = 3 then "DECODE"
  else if code.getD 0 = 4 then "SRC_NOT_SUPPORTED"
  else "UNKNOWN"

/-- `emit`: suppress when disposed or when `(state, reason)` is unchanged,
otherwise record the new health and invoke `onHealth`. -/
def emitH (next : Health) (st : ProbeState) : ProbeState × List Health :=
  if st.disposed then (st, [])
  else if next.state = st.health.state ∧ next.reason = st.health.reason then
    (st, [])
  else ({ st with health := next }, [next])

/-- One RGB pixel of the downsampled 96×54 canvas. -/
abbrev Pixel := ℚ × ℚ × ℚ

/-- Rec. 709 luma `r*0.2126 + g*0.7152 + b*0.0722`. -/
def lumaOf (p : Pixel) : ℚ :=
  p.1 * (2126/10000) + p.2.1 * (7152/10000) + p.2.2 * (722/10000)

/-- Number of pixels at or below the luma threshold (`l <= threshold`). -/
def blackCount (thr : ℚ) (frame : List Pixel) : ℕ :=
  (frame.filter (fun p => lumaOf p ≤ thr)).length

/-- The black-pixel ratio; the code divides by `w * h = 96 * 54`. -/
def blackRatio (thr : ℚ) (frame : List Pixel) : ℚ :=
  (blackCount thr frame : ℚ) / (96 * 54)

/-- `toFixed(2)`-style rendering of a rational (round to nearest at two
decimal places); only its "drop:"/"black_ratio_" prefix matters to any
property proved here. -/
def fixed2 (q : ℚ) : String :=
  let n : ℤ := round (q * 100)
  let m := n.natAbs
  (if n < 0 then "-" else "") ++ toString (m / 100) ++ "." ++
    (if m % 100 < 10 then "0" else "") ++ toString (m % 100)

/-- Sequencing of two emitting steps, accumulating their outputs. -/
def andThen (r : ProbeState × List Health)
    (g : ProbeState → ProbeState × List Health) : ProbeState × List Health :=
  ((g r.1).1, r.2 ++ (g r.1).2)

/-- First half of the `pixelTick` body: bump the streak on a dark sample,
otherwise reset it to 0 (emitting `black_recovered` when currently
black). -/
def pixelStreak (opts : ProbeOpts) (now : ℤ) (ratio : ℚ) (st : ProbeState) :
    ProbeState × List Health :=
  if opts.blackRatioThreshold ≤ ratio then
    ({ st with blackStreak := st.blackStreak + 1 }, [])
  else
    let st0 := { st with blackStreak := 0 }
    if st0.health.state = HState.black then
      emitH ⟨HState.ok, now, "black_recovered"⟩ st0
    else (st0, [])

/-- Second half of the `pixelTick` body: emit black once the streak reaches
`blackConsecutive`. -/
def pixelConfirm (opts : ProbeOpts) (now : ℤ) (ratio : ℚ) (st : ProbeState) :
    ProbeState × List Health :=
  if opts.blackConsecutive ≤ st.blackStreak then
    emitH ⟨HState.black, now, "black_ratio_" ++ fixed2 ratio⟩ st
  else (st, [])

/-- The pixel sampler interval callback (`pixelTick`).  `frame = Option.none`
models `drawImage`/`getImageData` throwing (cross-origin taint). -/
def pixelTickStep (opts : ProbeOpts) (now : ℤ) (frame : Option (List Pixel))
    (st : ProbeState) : ProbeState × List Health :=
  if st.disposed then (st, [])
  else if !opts.enablePixelProbe then (st, [])
  else if st.pixelDisabled then (st, [])
  else if st.health.state ≠ HState.ok then (st, [])
  else
    match frame with
    | Option.none => ({ st with pixelDisabled := true }, [])
    | some f =>
      let ratio := blackRatio opts.blackLumaThreshold f
      andThen (pixelStreak opts now ratio st) (pixelConfirm opts now ratio)

/-- The 400ms frozen watchdog callback (`frozenTick`). -/
def frozenTickStep (opts : ProbeOpts) (now : ℤ) (paused ended : Bool)
    (currentTime : Option ℚ) (st : ProbeState) : ProbeState × List Health :=
  if st.disposed then (st, [])
  else if paused || ended then (st, [])
  else
    match currentTime with
    | Option.none => (st, [])
    | some t =>
      if t ≠ st.lastTime then
        let st1 := { st with lastTime := t, lastProgressAt := now }
        if st1.health.state = HState.frozen then
          emitH ⟨HState.ok, now, "time_progress"⟩ st1
        else (st1, [])
      else
        if (opts.frozenSeconds : ℤ) * 1000 ≤ now - st.lastProgressAt then
          emitH ⟨HState.frozen, now,
            "no_time_progress_" ++ toString opts.frozenSeconds ++ "s"⟩ st
        else (st, [])

/-- One external stimulus delivered to an attachment: a transport event, a
watchdog tick, a pixel sample, or invoking the detach handle. -/
inductive ProbeEvent
  | waiting (now : ℤ)
  | stalled (now : ℤ)
  | playing (now : ℤ)
  | canplay (now : ℤ)
  | mediaError (code : Option ℤ) (now : ℤ)
  | frozenTick (now : ℤ) (paused ended : Bool) (currentTime : Option ℚ)
  | pixelTick (now : ℤ) (frame : Option (List Pixel))
  | detach

/-- Dispatch one stimulus to the corresponding handler.  The detach handle
sets `disposed`, clears both intervals and removes every listener; since
every handler and `emitH` short-circuit on `disposed`, the flag models
all of that. -/
def eventStep (opts : ProbeOpts) (e : ProbeEvent) (st : ProbeState) :
    ProbeState × List Health :=
  match e with
  | .waiting now => emitH ⟨HState.buffering, now, "waiting"⟩ st
  | .stalled now => emitH ⟨HState.buffering, now, "stalled"⟩ st
  | .playing now => emitH ⟨HState.ok, now, "playing"⟩ st
  | .canplay now => emitH ⟨HState.ok, now, "canplay"⟩ st
  | .mediaError code now =>
      emitH ⟨HState.error, now, "media_" ++ mediaErrorText code⟩ st
  | .frozenTick now paused ended t => frozenTickStep opts now paused ended t st
  | .pixelTick now frame => pixelTickStep opts now frame st
  | .detach => ({ st with disposed := true }, [])

/-- The body of `attachVideoProbe` up to its return: initial health
`{ok, "init"}`, then the synchronous `emit({ok, "attached"})`. -/
def attachInit (now : ℤ) (initialTime : ℚ) : ProbeState × List Health :=
  let st0 : ProbeState :=
    { disposed := false, health := ⟨HState.ok, now, "init"⟩,
      lastTime := initialTime, lastProgressAt := now,
      blackStreak := 0, pixelDisabled := false }
  emitH ⟨HState.ok, now, "attached"⟩ st0

/-- Run a sequence of stimuli, concatenating the delivered readings. -/
def probeSteps (opts : ProbeOpts) : List ProbeEvent → ProbeState →
    ProbeState × List Health
  | [], st => (st, [])
  | e :: es, st =>
    let r1 := eventStep opts e st
    let r2 := probeSteps opts es r1.1
    (r2.1, r1.2 ++ r2.2)

/-- A full attachment run: attach, then deliver the stimuli. -/
def runProbe (opts : ProbeOpts) (now : ℤ) (initialTime : ℚ)
    (events : List ProbeEvent) : ProbeState × List Health :=
  let r0 := attachInit now initialTime
  let r1 := probeSteps opts events r0.1
  (r1.1, r0.2 ++ r1.2)

/-- Two consecutive readings never agree on both `state` and `reason`. -/
def distinctRead (a b : Health) : Prop :=
  ¬(a.state = b.state ∧ a.reason = b.reason)

/-- Invariant tying the stored `health` to the last delivered reading. -/
def dedupInv (st : ProbeState) (out : List Health) : Prop :=
  List.Chain' distinctRead out ∧
  ∀ x ∈ out.getLast?, x.state = st.health.state ∧ x.reason = st.health.reason

lemma dedupInv_emitH (next : Health) (st : ProbeState) (out : List Health)
    (h : dedupInv st out) :
    dedupInv (emitH next st).1 (out ++ (emitH next st).2) := by
  unfold emitH
  split
  · simpa using h
  split
  · simpa using h
  next hne =>
    dsimp only
    constructor
    · refine h.1.append (List.chain'_singleton next) ?_
      intro x hx y hy
      simp only [List.head?_cons, Option.mem_some_iff] at hy
      subst hy
      intro hcon
      have hlast := h.2 x hx
      exact hne ⟨hcon.1.symm.trans hlast.1, hcon.2.symm.trans hlast.2⟩
    · intro x hx
      rw [List.getLast?_concat] at hx
      simp only [Option.mem_some_iff] at hx
      subst hx
      exact ⟨rfl, rfl⟩

lemma dedupInv_health_eq {st st' : ProbeState} {out : List Health}
    (hh : st'.health = st.health) (h : dedupInv st out) : dedupInv st' out :=
  ⟨h.1, fun x hx => by rw [hh]; exact h.2 x hx⟩

lemma dedupInv_andThen (r : ProbeState × List Health)
    (g : ProbeState → ProbeState × List Health) (out : List Health)
    (hr : dedupInv r.1 (out ++ r.2))
    (hg : ∀ st1 out1, dedupInv st1 out1 →
      dedupInv (g st1).1 (out1 ++ (g st1).2)) :
    dedupInv (andThen r g).1 (out ++ (andThen r g).2) := by
  unfold andThen
  dsimp only
  rw [← List.append_assoc]
  exact hg r.1 (out ++ r.2) hr

lemma dedupInv_eventStep (opts : ProbeOpts) (e : ProbeEvent) (st : ProbeState)
    (out : List Health) (h : dedupInv st out) :
    dedupInv (eventStep opts e st).1 (out ++ (eventStep opts e st).2) := by
  cases e with
  | waiting now => exact dedupInv_emitH _ st out h
  | stalled now => exact dedupInv_emitH _ st out h
  | playing now => exact dedupInv_emitH _ st out h
  | canplay now => exact dedupInv_emitH _ st out h
  | mediaError code now => exact dedupInv_emitH _ st out h
  | detach =>
    show dedupInv { st with disposed := true } (out ++ [])
    rw [List.append_nil]
    exact dedupInv_health_eq rfl h
  | frozenTick now paused ended t =>
    show dedupInv (frozenTickStep opts now paused ended t st).1
      (out ++ (frozenTickStep opts now paused ended t st).2)
    unfold frozenTickStep
    split
    · simpa using h
    split
    · simpa using h
    match t with
    | Option.none => simpa using h
    | some tv =>
      dsimp only
      split
      · have h1 := dedupInv_health_eq
          (rfl : ({ st with lastTime := tv, lastProgressAt := now } :
            ProbeState).health = st.health) h
        split
        · exact dedupInv_emitH _ _ out h1
        · simpa using h1
      · split
        · exact dedupInv_emitH _ _ out h
        · simpa using h
  | pixelTick now frame =>
    show dedupInv (pixelTickStep opts now frame st).1
      (out ++ (pixelTickStep opts now frame st).2)
    unfold pixelTickStep
    split
    · simpa using h
    split
    · simpa using h
    split
    · simpa using h
    split
    · simpa using h
    match frame with
    | Option.none =>
      show dedupInv { st with pixelDisabled := true } (out ++ [])
      rw [List.append_nil]
      exact dedupInv_health_eq rfl h
    | some f =>
      dsimp only
      refine dedupInv_andThen _ _ out ?_ ?_
      · show dedupInv (pixelStreak opts now _ st).1
          (out ++ (pixelStreak opts now _ st).2)
        unfold pixelStreak
        split
        · simpa using h
        · dsimp only
          split
          · exact dedupInv_emitH _ _ out (dedupInv_health_eq rfl h)
          · simpa using dedupInv_health_eq
              (rfl : ({ st with blackStreak := 0 } :
                ProbeState).health = st.health) h
      · intro st1 out1 h1
        show dedupInv (pixelConfirm opts now _ st1).1
          (out1 ++ (pixelConfirm opts now _ st1).2)
        unfold pixelConfirm
        split
        · exact dedupInv_emitH _ _ out1 h1
        · simpa using h1

lemma dedupInv_probeSteps (opts : ProbeOpts) (events : List ProbeEvent)
    (st : ProbeState) (out : List Health) (h : dedupInv st out) :
    dedupInv (probeSteps opts events st).1
      (out ++ (probeSteps opts events st).2) := by
  induction events generalizing st out with
  | nil => simpa [probeSteps] using h
  | cons e es ih =>
    show dedupInv (probeSteps opts es (eventStep opts e st).1).1
      (out ++ ((eventStep opts e st).2 ++
        (probeSteps opts es (eventStep opts e st).1).2))
    rw [← List.append_assoc]
    exact ih _ _ (dedupInv_eventStep opts e st out h)

/-- C4: for every option set, attach time and stimulus sequence, the
sequence of health readings delivered by the probe never contains two
consecutive readings agreeing on both `state` and `reason`. -/
theorem claim4_health_dedup (opts : ProbeOpts) (now : ℤ) (t0 : ℚ)
    (events : List ProbeEvent) :
    List.Chain' distinctRead (runProbe opts now t0 events).2 := by
  have h0 : dedupInv (attachInit now t0).1 ([] ++ (attachInit now t0).2) :=
    dedupInv_emitH _ _ [] ⟨List.chain'_nil, by simp⟩
  rw [List.nil_append] at h0
  exact (dedupInv_probeSteps opts events _ _ h0).1

/-- C10: `attachVideoProbe` synchronously delivers exactly one reading
while attaching — state ok, reason "attached" — and in every run that
reading precedes anything produced by later events. -/
theorem claim10_attached_reading (opts : ProbeOpts) (now : ℤ) (t0 : ℚ)
    (events : List ProbeEvent) :
    (attachInit now t0).2 = [⟨HState.ok, now, "attached"⟩] ∧
    (runProbe opts now t0 events).2.head? =
      some ⟨HState.ok, now, "attached"⟩ := by
  have hinit : (attachInit now t0).2 = [⟨HState.ok, now, "attached"⟩] := by
    simp [attachInit, emitH]
  refine ⟨hinit, ?_⟩
  show ((attachInit now t0).2 ++
    (probeSteps opts events (attachInit now t0).1).2).head? = _
  rw [hinit]
  rfl

/-! ## Scene Probe (src, `attachSceneProbe`)

Frame-differencing motion/occupancy estimator over a 96×54 downsample. -/

inductive PeopleBand
  | unknown | nobodyHere | few | crowd
deriving DecidableEq

structure SceneProbeResult where
  peopleBand : PeopleBand
  motion : ℚ
  pixelsOk : Bool
deriving DecidableEq

/-- `SceneProbeOptions` with the source defaults. -/
structure SceneOpts where
  sampleEveryMs : ℕ := 900
  motionThreshold : ℚ := 28
  gridX : ℕ := 6
  gridY : ℕ := 4
  presenceMin : ℚ := 4/1000
  crowdMinCells : ℕ := 7
deriving DecidableEq

/-- Closure state of one `attachSceneProbe` call (`last`, `pixelsOk`, and
whether `clearInterval` has run). -/
structure SceneState where
  last : Option (List ℚ)
  pixelsOk : Bool
  stopped : Bool
deriving DecidableEq

def sceneW : ℕ := 96

def sceneH : ℕ := 54

/-- `clamp(n, a, b) = Math.max(a, Math.min(b, n))`. -/
def clampQ (n a b : ℚ) : ℚ := max a (min b n)

/-- Greyscale conversion of a frame via the luma weights. -/
def grayOf (f : List Pixel) : List ℚ := f.map lumaOf

/-- Per-pixel absolute difference against the previous sample. -/
def diffAt (cur prev : List ℚ) (i : ℕ) : ℚ :=
  |cur.getD i 0 - prev.getD i 0|

/-- Indices of "changed" pixels (difference strictly above the motion
threshold). -/
def changedList (thr : ℚ) (cur prev : List ℚ) : List ℕ :=
  (List.range (sceneW * sceneH)).filter (fun i => thr < diffAt cur prev i)

/-- Sum of the differences over the changed pixels. -/
def sumDiffs (thr : ℚ) (cur prev : List ℚ) : ℚ :=
  ((changedList thr cur prev).map (diffAt cur prev)).sum

def cellW (o : SceneOpts) : ℕ := sceneW / o.gridX

def cellH (o : SceneOpts) : ℕ := sceneH / o.gridY

/-- Grid cell receiving pixel `i` (`min` clamps the last column/row). -/
def cellIndex (o : SceneOpts) (i : ℕ) : ℕ :=
  let x := i % sceneW
  let y := i / sceneW
  let cx := min (o.gridX - 1) (x / cellW o)
  let cy := min (o.gridY - 1) (y / cellH o)
  cy * o.gridX + cx

/-- Changed-pixel count falling in cell `c`. -/
def cellCount (o : SceneOpts) (cur prev : List ℚ) (c : ℕ) : ℕ :=
  (changedList o.motionThreshold cur prev).countP
    (fun i => cellIndex o i = c)

/-- `max(5, floor(cellW * cellH * 0.02))`. -/
def cellFloor (o : SceneOpts) : ℕ :=
  max 5 (cellW o * cellH o * 2 / 100)

/-- Number of cells whose changed-pixel count strictly exceeds the floor. -/
def activeCells (o : SceneOpts) (cur prev : List ℚ) : ℕ :=
  (List.range (o.gridX * o.gridY)).countP
    (fun c => cellFloor o < cellCount o cur prev c)

/-- Changed-pixel fraction. -/
def presenceFrac (thr : ℚ) (cur prev : List ℚ) : ℚ :=
  ((changedList thr cur prev).length : ℚ) / (sceneW * sceneH)

/-- Normalized motion energy. -/
def motionOf (thr : ℚ) (cur prev : List ℚ) : ℚ :=
  clampQ (sumDiffs thr cur prev / ((sceneW * sceneH : ℚ) * 255)) 0 1

/-- The `peopleBand` classification chain: none / crowd / few. -/
def bandOf (o : SceneOpts) (cur prev : List ℚ) : PeopleBand :=
  if presenceFrac o.motionThreshold cur prev < o.presenceMin then
    PeopleBand.nobodyHere
  else if o.crowdMinCells ≤ activeCells o cur prev then PeopleBand.crowd
  else PeopleBand.few

/-- One firing of the scene sampler: the stream may not be ready yet
(`readyState < 2` or zero dimensions — no emission), the pixel read may
throw, or a frame is available. -/
inductive SceneSample
  | notReady
  | failure
  | frame (f : List Pixel)

/-- The interval callback of `attachSceneProbe`. -/
def sceneStep (o : SceneOpts) (s : SceneSample) (st : SceneState) :
    SceneState × List SceneProbeResult :=
  if st.stopped then (st, [])
  else
    match s with
    | .notReady => (st, [])
    | .failure =>
      ({ st with pixelsOk := false, stopped := true },
        [⟨PeopleBand.unknown, 0, false⟩])
    | .frame f =>
      let gray := grayOf f
      match st.last with
      | Option.none =>
        ({ st with last := some gray }, [⟨PeopleBand.unknown, 0, true⟩])
      | some prev =>
        ({ st with last := some gray },
          [⟨bandOf o gray prev, motionOf o.motionThreshold gray prev, true⟩])

/-- The detach handle returned by `attachSceneProbe` (`clearInterval`). -/
def sceneDetach (st : SceneState) : SceneState := { st with stopped := true }

/-- Closure state right after `attachSceneProbe` returns. -/
def sceneInit : SceneState :=
  { last := Option.none, pixelsOk := true, stopped := false }

/-- Run a sequence of sampler firings. -/
def sceneSteps (o : SceneOpts) : List SceneSample → SceneState →
    SceneState × List SceneProbeResult
  | [], st => (st, [])
  | s :: ss, st =>
    let r1 := sceneStep o s st
    let r2 := sceneSteps o ss r1.1
    (r2.1, r1.2 ++ r2.2)

lemma scene_first_reading (o : SceneOpts) (samples : List SceneSample)
    (st : SceneState) (hlast : st.last = Option.none) :
    ∀ r, (sceneSteps o samples st).2.head? = some r →
      r.peopleBand = PeopleBand.unknown ∧ r.motion = 0 := by
  induction samples generalizing st with
  | nil => intro r hr; simp [sceneSteps] at hr
  | cons s ss ih =>
    intro r hr
    by_cases hstop : st.stopped = true
    · have : sceneStep o s st = (st, []) := by
        unfold sceneStep
        rw [if_pos hstop]
      rw [show (sceneSteps o (s :: ss) st) =
          ((sceneSteps o ss (sceneStep o s st).1).1,
            (sceneStep o s st).2 ++ (sceneSteps o ss (sceneStep o s st).1).2)
        from rfl, this] at hr
      exact ih st hlast r (by simpa using hr)
    · rw [Bool.not_eq_true] at hstop
      cases s with
      | notReady =>
        have hs : sceneStep o SceneSample.notReady st = (st, []) := by
          unfold sceneStep
          rw [if_neg (by simp [hstop])]
        rw [show (sceneSteps o (SceneSample.notReady :: ss) st) =
            ((sceneSteps o ss (sceneStep o SceneSample.notReady st).1).1,
              (sceneStep o SceneSample.notReady st).2 ++
                (sceneSteps o ss (sceneStep o SceneSample.notReady st).1).2)
          from rfl, hs] at hr
        exact ih st hlast r (by simpa using hr)
      | failure =>
        have hs : sceneStep o SceneSample.failure st =
            ({ st with pixelsOk := false, stopped := true },
              [⟨PeopleBand.unknown, 0, false⟩]) := by
          unfold sceneStep
          rw [if_neg (by simp [hstop])]
        rw [show (sceneSteps o (SceneSample.failure :: ss) st) =
            ((sceneSteps o ss (sceneStep o SceneSample.failure st).1).1,
              (sceneStep o SceneSample.failure st).2 ++
                (sceneSteps o ss (sceneStep o SceneSample.failure st).1).2)
          from rfl, hs] at hr
        simp only [List.cons_append, List.head?_cons, Option.some.injEq] at hr
        rw [← hr]
        exact ⟨rfl, rfl⟩
      | frame f =>
        have hs : sceneStep o (SceneSample.frame f) st =
            ({ st with last := some (grayOf f) },
              [⟨PeopleBand.unknown, 0, true⟩]) := by
          unfold sceneStep
          rw [if_neg (by simp [hstop]), hlast]
        rw [show (sceneSteps o (SceneSample.frame f :: ss) st) =
            ((sceneSteps o ss (sceneStep o (SceneSample.frame f) st).1).1,
              (sceneStep o (SceneSample.frame f) st).2 ++
                (sceneSteps o ss (sceneStep o (SceneSample.frame f) st).1).2)
          from rfl, hs] at hr
        simp only [List.cons_append, List.head?_cons, Option.some.injEq] at hr
        rw [← hr]
        exact ⟨rfl, rfl⟩

/-- C6: the first reading a scene-probe attachment ever delivers is
`unknown` with motion 0; a frame sample with no prior frame delivers
`unknown`/0, and a frame sample with a prior frame delivers "none" when
the changed-pixel fraction is below `presenceMin`, "crowd" when the
active-cell count reaches `crowdMinCells`, and "few" otherwise. -/
theorem claim6_scene_bands :
    (∀ (o : SceneOpts) (samples : List SceneSample) (r : SceneProbeResult),
      (sceneSteps o samples sceneInit).2.head? = some r →
      r.peopleBand = PeopleBand.unknown ∧ r.motion = 0) ∧
    (∀ (o : SceneOpts) (f : List Pixel) (st : SceneState),
      st.stopped = false → st.last = Option.none →
      sceneStep o (.frame f) st =
        ({ st with last := some (grayOf f) },
          [⟨PeopleBand.unknown, 0, true⟩])) ∧
    (∀ (o : SceneOpts) (f : List Pixel) (st : SceneState)
        (prev : List ℚ),
      st.stopped = false → st.last = some prev →
      (sceneStep o (.frame f) st).2 =
        [⟨(if presenceFrac o.motionThreshold (grayOf f) prev < o.presenceMin
            then PeopleBand.nobodyHere
            else if o.crowdMinCells ≤ activeCells o (grayOf f) prev
            then PeopleBand.crowd
            else PeopleBand.few),
          motionOf o.motionThreshold (grayOf f) prev, true⟩]) := by
  refine ⟨?_, ?_, ?_⟩
  · intro o samples r
    exact scene_first_reading o samples sceneInit rfl r
  · intro o f st hstop hlast
    unfold sceneStep
    rw [if_neg (by simp [hstop]), hlast]
  · intro o f st prev hstop hlast
    unfold sceneStep
    rw [if_neg (by simp [hstop]), hlast]
    rfl

/-- Witness for C6 at concrete inputs: a first frame yields the unknown
reading, and a repeated empty frame yields band "none" with motion 0. -/
theorem claim6_scene_bands_witness :
    (sceneSteps ({} : SceneOpts) [SceneSample.frame []] sceneInit).2.head? =
      some ⟨PeopleBand.unknown, 0, true⟩ ∧
    sceneStep ({} : SceneOpts) (.frame []) sceneInit =
      ({ sceneInit with last := some (grayOf []) },
        [⟨PeopleBand.unknown, 0, true⟩]) := by
  constructor
  · have h := claim6_scene_bands.1 ({} : SceneOpts) [SceneSample.frame []]
    have hh := claim6_scene_bands.2.1 ({} : SceneOpts) [] sceneInit rfl rfl
    rw [show (sceneSteps ({} : SceneOpts) [SceneSample.frame []] sceneInit) =
        ((sceneSteps ({} : SceneOpts) []
            (sceneStep ({} : SceneOpts) (.frame []) sceneInit).1).1,
          (sceneStep ({} : SceneOpts) (.frame []) sceneInit).2 ++
            (sceneSteps ({} : SceneOpts) []
              (sceneStep ({} : SceneOpts) (.frame []) sceneInit).1).2)
      from rfl, hh]
    rfl
  · exact claim6_scene_bands.2.1 ({} : SceneOpts) [] sceneInit rfl rfl

/-! ## Concrete black-detection runs (C2) and pixel-fault handling (C7) -/

def darkFrame : List Pixel := List.replicate (96 * 54) (0, 0, 0)

def brightFrame : List Pixel := List.replicate (96 * 54) (255, 255, 255)

/-- Options enabling the pixel probe (other fields at source defaults). -/
def pixelOpts : ProbeOpts := { enablePixelProbe := true }

lemma blackCount_replicate (thr : ℚ) (a : Pixel) (n : ℕ) :
    blackCount thr (List.replicate n a) = if lumaOf a ≤ thr then n else 0 := by
  unfold blackCount
  induction n with
  | zero => simp
  | succ k ih =>
    rw [List.replicate_succ, List.filter_cons]
    by_cases h : lumaOf a ≤ thr
    · simp [h, ih]
    · simp [h, ih]

lemma blackRatio_dark : blackRatio 18 darkFrame = 1 := by
  unfold blackRatio darkFrame
  rw [blackCount_replicate]
  norm_num [lumaOf]

lemma blackRatio_bright : blackRatio 18 brightFrame = 0 := by
  unfold blackRatio brightFrame
  rw [blackCount_replicate]
  norm_num [lumaOf]

/-- Probe state right after `attachVideoProbe` at time 0. -/
def stAttached : ProbeState :=
  { disposed := false, health := ⟨HState.ok, 0, "attached"⟩, lastTime := 0,
    lastProgressAt := 0, blackStreak := 0, pixelDisabled := false }

/-- State after one all-dark sample. -/
def stDark1 : ProbeState := { stAttached with blackStreak := 1 }

/-- State after the second all-dark sample confirmed black. -/
def stBlack : ProbeState :=
  { disposed := false,
    health := ⟨HState.black, 200, "black_ratio_" ++ fixed2 1⟩,
    lastTime := 0, lastProgressAt := 0, blackStreak := 2,
    pixelDisabled := false }

lemma attachInit_eval :
    attachInit 0 0 = (stAttached, [⟨HState.ok, 0, "attached"⟩]) := rfl

lemma pixel_step_dark1 :
    pixelTickStep pixelOpts 100 (some darkFrame) stAttached =
      (stDark1, []) := by
  unfold pixelTickStep
  norm_num [pixelOpts, stAttached, stDark1, blackRatio_dark, andThen,
    pixelStreak, pixelConfirm, emitH]

lemma pixel_step_dark2 :
    pixelTickStep pixelOpts 200 (some darkFrame) stDark1 =
      (stBlack, [⟨HState.black, 200, "black_ratio_" ++ fixed2 1⟩]) := by
  unfold pixelTickStep
  norm_num [pixelOpts, stAttached, stDark1, stBlack, blackRatio_dark,
    andThen, pixelStreak, pixelConfirm, emitH]
  all_goals simp

lemma pixel_step_reset :
    pixelTickStep pixelOpts 150 (some brightFrame) stDark1 =
      ({ stDark1 with blackStreak := 0 }, []) := by
  unfold pixelTickStep
  norm_num [pixelOpts, stAttached, stDark1, blackRatio_bright, andThen,
    pixelStreak, pixelConfirm, emitH]
  all_goals simp

lemma pixel_step_black_bright :
    pixelTickStep pixelOpts 300 (some brightFrame) stBlack =
      (stBlack, []) := rfl

lemma run_black_run :
    runProbe pixelOpts 0 0
      [.pixelTick 100 (some darkFrame), .pixelTick 200 (some darkFrame),
        .pixelTick 300 (some brightFrame)] =
      (stBlack,
        [⟨HState.ok, 0, "attached"⟩,
          ⟨HState.black, 200, "black_ratio_" ++ fixed2 1⟩]) := by
  unfold runProbe
  rw [attachInit_eval]
  dsimp only
  unfold probeSteps
  rw [show eventStep pixelOpts (.pixelTick 100 (some darkFrame)) stAttached =
    (stDark1, []) from pixel_step_dark1]
  dsimp only
  unfold probeSteps
  rw [show eventStep pixelOpts (.pixelTick 200 (some darkFrame)) stDark1 =
    (stBlack, [⟨HState.black, 200, "black_ratio_" ++ fixed2 1⟩])
    from pixel_step_dark2]
  dsimp only
  unfold probeSteps
  rw [show eventStep pixelOpts (.pixelTick 300 (some brightFrame)) stBlack =
    (stBlack, []) from pixel_step_black_bright]
  rfl

/-- C2 (demonstration at the failing input): two consecutive all-dark
samples (ratio 1 ≥ 0.92, streak reaching `blackConsecutive = 2`) drive
the probe to black; a bright sample while the streak is 1 resets the
streak to 0; but once the state is black, a bright sample (ratio 0,
below the threshold) produces NO emission and leaves the state black —
the `black_recovered` transition claimed by the spec never fires because
`pixelTick` returns early whenever the state is not ok. -/
theorem claim2_black_detection :
    pixelTickStep pixelOpts 100 (some darkFrame) stAttached =
      (stDark1, []) ∧
    pixelTickStep pixelOpts 200 (some darkFrame) stDark1 =
      (stBlack, [⟨HState.black, 200, "black_ratio_" ++ fixed2 1⟩]) ∧
    pixelTickStep pixelOpts 150 (some brightFrame) stDark1 =
      ({ stDark1 with blackStreak := 0 }, []) ∧
    blackRatio 18 brightFrame = 0 ∧
    stBlack.health.state = HState.black ∧
    pixelTickStep pixelOpts 300 (some brightFrame) stBlack =
      (stBlack, []) ∧
    runProbe pixelOpts 0 0
      [.pixelTick 100 (some darkFrame), .pixelTick 200 (some darkFrame),
        .pixelTick 300 (some brightFrame)] =
      (stBlack,
        [⟨HState.ok, 0, "attached"⟩,
          ⟨HState.black, 200, "black_ratio_" ++ fixed2 1⟩]) :=
  ⟨pixel_step_dark1, pixel_step_dark2, pixel_step_reset, blackRatio_bright,
    rfl, pixel_step_black_bright, run_black_run⟩

lemma emitH_pixelDisabled (n : Health) (st : ProbeState) :
    (emitH n st).1.pixelDisabled = st.pixelDisabled := by
  unfold emitH
  split
  · rfl
  split
  · rfl
  · rfl

lemma emitH_mem {n : Health} {st : ProbeState} {h : Health}
    (hm : h ∈ (emitH n st).2) : h = n := by
  unfold emitH at hm
  split at hm
  · simp at hm
  split at hm
  · simp at hm
  · simpa using hm

lemma pixelDisabled_eventStep (opts : ProbeOpts) (e : ProbeEvent)
    (st : ProbeState) (hpd : st.pixelDisabled = true) :
    (eventStep opts e st).1.pixelDisabled = true := by
  cases e with
  | waiting now => rw [show eventStep opts (.waiting now) st =
      emitH ⟨HState.buffering, now, "waiting"⟩ st from rfl,
      emitH_pixelDisabled]; exact hpd
  | stalled now => rw [show eventStep opts (.stalled now) st =
      emitH ⟨HState.buffering, now, "stalled"⟩ st from rfl,
      emitH_pixelDisabled]; exact hpd
  | playing now => rw [show eventStep opts (.playing now) st =
      emitH ⟨HState.ok, now, "playing"⟩ st from rfl,
      emitH_pixelDisabled]; exact hpd
  | canplay now => rw [show eventStep opts (.canplay now) st =
      emitH ⟨HState.ok, now, "canplay"⟩ st from rfl,
      emitH_pixelDisabled]; exact hpd
  | mediaError code now => rw [show eventStep opts (.mediaError code now) st =
      emitH ⟨HState.error, now, "media_" ++ mediaErrorText code⟩ st from rfl,
      emitH_pixelDisabled]; exact hpd
  | detach => exact hpd
  | frozenTick now paused ended t =>
    show (frozenTickStep opts now paused ended t st).1.pixelDisabled = true
    unfold frozenTickStep
    split
    · exact hpd
    split
    · exact hpd
    match t with
    | Option.none => exact hpd
    | some tv =>
      dsimp only
      split
      · split
        · rw [emitH_pixelDisabled]; exact hpd
        · exact hpd
      · split
        · rw [emitH_pixelDisabled]; exact hpd
        · exact hpd
  | pixelTick now frame =>
    show (pixelTickStep opts now frame st).1.pixelDisabled = true
    unfold pixelTickStep
    split
    · exact hpd
    split
    · exact hpd
    · exact hpd

lemma pixelTick_no_error (opts : ProbeOpts) (now : ℤ)
    (frame : Option (List Pixel)) (st : ProbeState) :
    ∀ h ∈ (pixelTickStep opts now frame st).2, h.state ≠ HState.error := by
  intro h hm
  unfold pixelTickStep at hm
  split at hm
  · simp at hm
  split at hm
  · simp at hm
  split at hm
  · simp at hm
  split at hm
  · simp at hm
  match frame with
  | Option.none => simp at hm
  | some f =>
    dsimp only at hm
    unfold andThen at hm
    rw [List.mem_append] at hm
    rcases hm with hm | hm
    · unfold pixelStreak at hm
      split at hm
      · simp at hm
      dsimp only at hm
      split at hm
      · rw [emitH_mem hm]
        intro hcon
        exact HState.noConfusion hcon
      · simp at hm
    · unfold pixelConfirm at hm
      split at hm
      · rw [emitH_mem hm]
        intro hcon
        exact HState.noConfusion hcon
      · simp at hm

/-- C7: a pixel read throwing is caught, not propagated.  Health Monitor:
the throw disables the sampler without any emission (in particular no
"error" reading), the disabled flag is sticky across every later event,
a disabled sampler never runs again, and the sampler can only ever emit
non-error readings.  Scene Probe: the throw reports `unknown` with
`pixelsOk = false` once and stops the sampler; a stopped sampler never
emits again. -/
theorem claim7_pixel_fault :
    (∀ (opts : ProbeOpts) (now : ℤ) (st : ProbeState),
      st.disposed = false → opts.enablePixelProbe = true →
      st.pixelDisabled = false → st.health.state = HState.ok →
      pixelTickStep opts now Option.none st =
        ({ st with pixelDisabled := true }, [])) ∧
    (∀ (opts : ProbeOpts) (now : ℤ) (frame : Option (List Pixel))
        (st : ProbeState), st.pixelDisabled = true →
      pixelTickStep opts now frame st = (st, [])) ∧
    (∀ (opts : ProbeOpts) (e : ProbeEvent) (st : ProbeState),
      st.pixelDisabled = true →
      (eventStep opts e st).1.pixelDisabled = true) ∧
    (∀ (opts : ProbeOpts) (now : ℤ) (frame : Option (List Pixel))
        (st : ProbeState),
      ∀ h ∈ (pixelTickStep opts now frame st).2, h.state ≠ HState.error) ∧
    (∀ (o : SceneOpts) (st : SceneState), st.stopped = false →
      sceneStep o .failure st =
        ({ st with pixelsOk := false, stopped := true },
          [⟨PeopleBand.unknown, 0, false⟩])) ∧
    (∀ (o : SceneOpts) (s : SceneSample) (st : SceneState),
      st.stopped = true → sceneStep o s st = (st, [])) := by
  refine ⟨?_, ?_, pixelDisabled_eventStep, pixelTick_no_error, ?_, ?_⟩
  · intro opts now st hd he hpd hok
    unfold pixelTickStep
    rw [if_neg (by simp [hd]), if_neg (by simp [he]),
      if_neg (by simp [hpd]), if_neg (by simp [hok])]
  · intro opts now frame st hpd
    unfold pixelTickStep
    split
    · rfl
    split
    · rfl
    · rfl
  · intro o st hstop
    unfold sceneStep
    rw [if_neg (by simp [hstop])]
  · intro o s st hstop
    unfold sceneStep
    rw [if_pos (by simp [hstop])]

/-- Witness for C7 at concrete inputs: a throw at the attached state
disables the pixel sampler silently, and a throw at the fresh scene
state emits the single degraded reading. -/
theorem claim7_pixel_fault_witness :
    pixelTickStep pixelOpts 50 Option.none stAttached =
      ({ stAttached with pixelDisabled := true }, []) ∧
    sceneStep ({} : SceneOpts) .failure sceneInit =
      ({ sceneInit with pixelsOk := false, stopped := true },
        [⟨PeopleBand.unknown, 0, false⟩]) := by
  constructor
  · exact claim7_pixel_fault.1 pixelOpts 50 stAttached rfl rfl rfl rfl
  · exact claim7_pixel_fault.2.2.2.2.1 ({} : SceneOpts) sceneInit rfl

/-! ## Behavioral Event Detector (src/components/VideoTile.tsx)

The per-tile inference tick: gate on readiness / stream health / cooldown /
the global inference lock, then run the drop + posture + stillness fall
heuristic over the largest detected person. -/

/-- One raw detection from `model.detect` (class, score, bbox). -/
structure Det where
  cls : String
  score : ℚ
  x : ℚ
  y : ℚ
  w : ℚ
  h : ℚ
deriving DecidableEq

/-- A person box after filtering/mapping. -/
structure Box where
  x : ℚ
  y : ℚ
  w : ℚ
  h : ℚ
  score : ℚ
deriving DecidableEq

inductive FallState
  | none | risk | critical
deriving DecidableEq

/-- Filter detections to persons at or above `minScore`, then sort by box
area, biggest first (the JS comparator `b.w*b.h - a.w*a.h`). -/
def tilePeople (minScore : ℚ) (dets : List Det) : List Box :=
  List.insertionSort (fun a b => b.w * b.h ≤ a.w * a.h)
    ((dets.filter (fun d => d.cls = "person" ∧ minScore ≤ d.score)).map
      (fun d => ⟨d.x, d.y, d.w, d.h, d.score⟩))

/-- `countToBand` from src/components/VideoTile.tsx. -/
def countToBand (count : ℕ) : PeopleBand :=
  if count ≤ 0 then PeopleBand.nobodyHere
  else if count ≤ 3 then PeopleBand.few
  else PeopleBand.crowd

/-- The fall-tracking closure variables of one tile's AI effect. -/
structure TrackState where
  lastCenterY : Option ℚ
  lastAspect : Option ℚ
  lastTs : Option ℤ
  postDropStillStart : Option ℤ
  cooldownUntil : ℤ
  emaMotion : ℚ
deriving DecidableEq

/-- Closure state when the AI effect starts (`emaMotion = 0.02`). -/
def trackInit : TrackState :=
  { lastCenterY := Option.none, lastAspect := Option.none,
    lastTs := Option.none, postDropStillStart := Option.none,
    cooldownUntil := 0, emaMotion := 2/100 }

/-- The `AIState` payload passed to `setAi` on a full inference tick. -/
structure AIReading where
  ready : Bool
  personCount : ℕ
  band : PeopleBand
  fall : FallState
  confidence : ℚ
  reasons : List String
  motion : ℚ
  ts : ℤ
deriving DecidableEq

/-- What one `tick` invocation does, matching the early returns of the
source: patch `ready := false` (video not producing frames), report
`stream_not_ok`, skip silently during cooldown, skip silently when the
global inference slot is busy, or deliver a full reading. -/
inductive TickOut
  | notReady
  | unhealthy
  | cooldownSkip
  | busySkip
  | reading (r : AIReading)
deriving DecidableEq

def clamp01 (x : ℚ) : ℚ := max 0 (min 1 x)

def tileDyNorm (outH ly : ℚ) (p : Box) : ℚ :=
  (p.y + p.h / 2 - ly) / max 1 outH

def tileAspect (p : Box) : ℚ := p.h / max 1 p.w

def tileMotion (dyNorm : ℚ) : ℚ := min 1 (|dyNorm| * 3)

/-- `emaMotion = max(0.004, min(0.25, emaMotion*0.92 + motion*0.08))`. -/
def tileEma (prevEma motion : ℚ) : ℚ :=
  max (4/1000) (min (25/100) (prevEma * (92/100) + motion * (8/100)))

/-- `drop = dyNorm > 0.12 && dt < 1400`. -/
def tileDrop (dyNorm : ℚ) (dt : ℤ) : Bool :=
  decide ((12/100 : ℚ) < dyNorm ∧ dt < 1400)

/-- `postureFlip = lastAspect > 1.05 && aspect < 0.95`. -/
def tileFlip (lastAspect : Option ℚ) (aspect : ℚ) : Bool :=
  lastAspect.elim false
    (fun la => decide ((105/100 : ℚ) < la ∧ aspect < (95/100 : ℚ)))

/-- `littleMotion = |dyNorm| < min(0.012, emaMotion * 0.9)` (with the
already-updated EMA). -/
def tileLittleMotion (dyNorm ema : ℚ) : Bool :=
  decide (|dyNorm| < min (12/1000) (ema * (9/10)))

/-- The fall-classification chain of one tick once a previous sample
exists: returns `(fall, confidence, reasons, postDropStillStart,
cooldownUntil)`. -/
def tileFall (now : ℤ) (dyNorm aspect ema : ℚ) (dt : ℤ)
    (lastAspect : Option ℚ) (postDrop : Option ℤ) (cooldown : ℤ) :
    FallState × ℚ × List String × Option ℤ × ℤ :=
  let drop := tileDrop dyNorm dt
  let flip := tileFlip lastAspect aspect
  let reasons := (if drop then ["drop:" ++ fixed2 dyNorm] else []) ++
    (if flip then ["posture_flip"] else [])
  if drop || flip then
    (FallState.risk,
      clamp01 ((62/100) + dyNorm * (18/10) + (if flip then (18/100) else 0)),
      reasons, some now, cooldown)
  else
    match postDrop with
    | some s0 =>
      let stillAge := now - s0
      if tileLittleMotion dyNorm ema && decide (900 < stillAge) then
        (FallState.critical,
          clamp01 ((78/100) + ((stillAge : ℚ) / 3200) * (18/100) +
            (if aspect < (9/10 : ℚ) then (8/100) else 0)),
          reasons ++
            ["still:" ++ toString (round ((stillAge : ℚ) / 1000)) ++ "s"],
          Option.none, now + 12000)
      else if 4500 < stillAge then
        (FallState.none, 0, reasons, Option.none, cooldown)
      else (FallState.none, 0, reasons, some s0, cooldown)
    | Option.none => (FallState.none, 0, reasons, Option.none, cooldown)

/-- The body of a tick that passed every gate and obtained detections:
filter/sort the people, then run the fall heuristic. -/
def tileCore (minScore outH : ℚ) (now : ℤ) (dets : List Det)
    (st : TrackState) : TrackState × TickOut :=
    let people := tilePeople minScore dets
    let count := people.length
    let band := countToBand count
    match people with
    | [] =>
      ({ st with
          lastCenterY := Option.none
          lastAspect := Option.none
          lastTs := Option.none
          postDropStillStart := Option.none
          emaMotion := max (6/1000) (st.emaMotion * (95/100)) },
        TickOut.reading
          { ready := true, personCount := count, band := band,
            fall := FallState.none, confidence := 0, reasons := [],
            motion := 0, ts := now })
    | p :: _ =>
      let centerY := p.y + p.h / 2
      let aspect := tileAspect p
      match st.lastCenterY, st.lastTs with
      | some ly, some lt =>
        let dt := max 1 (now - lt)
        let dyNorm := tileDyNorm outH ly p
        let motion := tileMotion dyNorm
        let ema := tileEma st.emaMotion motion
        let res := tileFall now dyNorm aspect ema dt st.lastAspect
          st.postDropStillStart st.cooldownUntil
        ({ lastCenterY := some centerY, lastAspect := some aspect,
            lastTs := some now, postDropStillStart := res.2.2.2.1,
            cooldownUntil := res.2.2.2.2, emaMotion := ema },
          TickOut.reading
            { ready := true, personCount := count, band := band,
              fall := res.1, confidence := res.2.1, reasons := res.2.2.1,
              motion := motion, ts := now })
      | _, _ =>
        ({ st with
            lastCenterY := some centerY
            lastAspect := some aspect
            lastTs := some now },
          TickOut.reading
            { ready := true, personCount := count, band := band,
              fall := FallState.none, confidence := 0, reasons := [],
              motion := 0, ts := now })

/-- One invocation of the tile's inference `tick`.  `ready` bundles the
`ctx && videoWidth && videoHeight && readyState >= 2` gate; `busy` is
whether `withAiLock` found the process-wide slot taken (in which case
`detections` is null and the tick retries later without touching any
tracking state). -/
def tileTick (minScore outH : ℚ) (now : ℤ) (healthState : HState)
    (ready busy : Bool) (dets : List Det) (st : TrackState) :
    TrackState × TickOut :=
  if !ready then (st, TickOut.notReady)
  else if healthState ≠ HState.ok then (st, TickOut.unhealthy)
  else if now < st.cooldownUntil then (st, TickOut.cooldownSkip)
  else if busy then (st, TickOut.busySkip)
  else tileCore minScore outH now dets st

lemma tileTick_run (minScore outH : ℚ) (now : ℤ) (dets : List Det)
    (st : TrackState) (h : st.cooldownUntil ≤ now) :
    tileTick minScore outH now HState.ok true false dets st =
      tileCore minScore outH now dets st := by
  unfold tileTick
  rw [if_neg (by simp), if_neg (by simp), if_neg (by omega),
    if_neg (by simp)]

lemma tileFall_cooldown (now : ℤ) (dyNorm aspect ema : ℚ) (dt : ℤ)
    (lastAspect : Option ℚ) (postDrop : Option ℤ) (cooldown : ℤ)
    (h : cooldown ≤ now) :
    cooldown ≤
      (tileFall now dyNorm aspect ema dt lastAspect postDrop
        cooldown).2.2.2.2 := by
  simp only [tileFall]
  repeat' split
  all_goals first
    | exact le_refl _
    | exact (by omega : cooldown ≤ now + 12000)

/-- C1: for a tick that runs (stream ok, video ready, inference slot free,
not in cooldown) with a tracked person: (a) when the largest box's
normalized center-Y drop exceeds 0.12 within the drop window, the tick
delivers a `risk` reading whose reasons contain a `drop:`-prefixed tag and
starts the stillness timer; (b) when instead the stillness timer is running
and motion stays under the small-motion threshold for more than 900ms, the
tick delivers a `critical` reading with a `still:`-prefixed tag, clears the
timer and sets a cooldown ending 12000ms later; (c) while the cooldown is
running no tick changes the tracking state or delivers any reading with a
non-none fall state; and (d) no tick ever decreases the cooldown
deadline. -/
theorem claim1_fall_detector :
    (∀ (minScore outH : ℚ) (now : ℤ) (dets : List Det) (st : TrackState)
        (p : Box) (rest : List Box) (ly : ℚ) (lt : ℤ),
      st.cooldownUntil ≤ now →
      tilePeople minScore dets = p :: rest →
      st.lastCenterY = some ly → st.lastTs = some lt →
      tileDrop (tileDyNorm outH ly p) (max 1 (now - lt)) = true →
      ∃ r : AIReading,
        (tileTick minScore outH now HState.ok true false dets st).2 =
          TickOut.reading r ∧
        r.fall = FallState.risk ∧
        (∃ s ∈ r.reasons, ∃ tl, s = "drop:" ++ tl) ∧
        (tileTick minScore outH now HState.ok true false dets
          st).1.postDropStillStart = some now) ∧
    (∀ (minScore outH : ℚ) (now : ℤ) (dets : List Det) (st : TrackState)
        (p : Box) (rest : List Box) (ly : ℚ) (lt s0 : ℤ),
      st.cooldownUntil ≤ now →
      tilePeople minScore dets = p :: rest →
      st.lastCenterY = some ly → st.lastTs = some lt →
      st.postDropStillStart = some s0 →
      tileDrop (tileDyNorm outH ly p) (max 1 (now - lt)) = false →
      tileFlip st.lastAspect (tileAspect p) = false →
      tileLittleMotion (tileDyNorm outH ly p)
        (tileEma st.emaMotion (tileMotion (tileDyNorm outH ly p))) = true →
      900 < now - s0 →
      ∃ r : AIReading,
        (tileTick minScore outH now HState.ok true false dets st).2 =
          TickOut.reading r ∧
        r.fall = FallState.critical ∧
        (∃ s ∈ r.reasons, ∃ tl, s = "still:" ++ tl) ∧
        (tileTick minScore outH now HState.ok true false dets
          st).1.cooldownUntil = now + 12000 ∧
        (tileTick minScore outH now HState.ok true false dets
          st).1.postDropStillStart = Option.none) ∧
    (∀ (minScore outH : ℚ) (now : ℤ) (healthState : HState)
        (ready busy : Bool) (dets : List Det) (st : TrackState),
      now < st.cooldownUntil →
      (tileTick minScore outH now healthState ready busy dets st).1 = st ∧
      ∀ r, (tileTick minScore outH now healthState ready busy dets
        st).2 = TickOut.reading r → r.fall = FallState.none) ∧
    (∀ (minScore outH : ℚ) (now : ℤ) (healthState : HState)
        (ready busy : Bool) (dets : List Det) (st : TrackState),
      st.cooldownUntil ≤
        (tileTick minScore outH now healthState ready busy dets
          st).1.cooldownUntil) := by
  refine ⟨?_, ?_, ?_, ?_⟩
  · intro minScore outH now dets st p rest ly lt hcool hpeople hly hlt hdrop
    rw [tileTick_run minScore outH now dets st hcool]
    simp only [tileCore]
    rw [hpeople, hly, hlt]
    dsimp only
    unfold tileFall
    rw [hdrop]
    refine ⟨_, rfl, ?_, ?_, ?_⟩
    · simp
    · refine ⟨"drop:" ++ fixed2 (tileDyNorm outH ly p), ?_,
        fixed2 (tileDyNorm outH ly p), rfl⟩
      simp
    · simp
  · intro minScore outH now dets st p rest ly lt s0 hcool hpeople hly hlt
      hpost hdrop hflip hlittle hage
    rw [tileTick_run minScore outH now dets st hcool]
    simp only [tileCore]
    rw [hpeople, hly, hlt]
    dsimp only
    unfold tileFall
    rw [hdrop, hflip, hpost, hlittle]
    have h900 : decide (900 < now - s0) = true := by
      simp [hage]
    dsimp only
    rw [h900]
    refine ⟨_, rfl, ?_, ?_, ?_, ?_⟩
    · simp
    · refine ⟨"still:" ++ toString (round (((now - s0 : ℤ) : ℚ) / 1000)) ++ "s",
        ?_, toString (round (((now - s0 : ℤ) : ℚ) / 1000)) ++ "s", rfl⟩
      simp
    · simp
    · simp
  · intro minScore outH now healthState ready busy dets st h
    unfold tileTick
    cases ready with
    | false => exact ⟨rfl, fun r hr => nomatch hr⟩
    | true =>
      simp only [Bool.not_true, Bool.false_eq_true, if_false]
      split
      · exact ⟨rfl, fun r hr => nomatch hr⟩
      · exact ⟨rfl, fun r hr => nomatch hr⟩
  · intro minScore outH now healthState ready busy dets st
    unfold tileTick
    split
    · exact le_refl _
    split
    · exact le_refl _
    split
    · exact le_refl _
    next hcool =>
    split
    · exact le_refl _
    simp only [tileCore]
    split
    · exact le_refl _
    next p rest hp =>
    split
    · exact tileFall_cooldown _ _ _ _ _ _ _ _ (by omega)
    · exact le_refl _

/-- Tracking state with a previous sample well above the current person. -/
def trackA : TrackState :=
  { lastCenterY := some 0, lastAspect := some 2, lastTs := some 500,
    postDropStillStart := Option.none, cooldownUntil := 0,
    emaMotion := 2/100 }

/-- Tracking state with a running stillness timer and no movement. -/
def trackB : TrackState :=
  { lastCenterY := some 40, lastAspect := some 2, lastTs := some 500,
    postDropStillStart := some 0, cooldownUntil := 0, emaMotion := 2/100 }

/-- A single high-confidence person detection. -/
def detOne : Det := ⟨"person", 1, 0, 30, 10, 20⟩

/-- Witness for C1 at concrete inputs: a 0.4-normalized drop within 500ms
yields a risk reading with a drop reason, and a still frame 1000ms into
the stillness window yields a critical reading with a still reason and a
12s cooldown. -/
theorem claim1_fall_detector_witness :
    (∃ r : AIReading,
      (tileTick 0 100 1000 HState.ok true false [detOne] trackA).2 =
        TickOut.reading r ∧
      r.fall = FallState.risk ∧
      (∃ s ∈ r.reasons, ∃ tl, s = "drop:" ++ tl) ∧
      (tileTick 0 100 1000 HState.ok true false [detOne]
        trackA).1.postDropStillStart = some 1000) ∧
    (∃ r : AIReading,
      (tileTick 0 100 1000 HState.ok true false [detOne] trackB).2 =
        TickOut.reading r ∧
      r.fall = FallState.critical ∧
      (∃ s ∈ r.reasons, ∃ tl, s = "still:" ++ tl) ∧
      (tileTick 0 100 1000 HState.ok true false [detOne]
        trackB).1.cooldownUntil = 1000 + 12000 ∧
      (tileTick 0 100 1000 HState.ok true false [detOne]
        trackB).1.postDropStillStart = Option.none) := by
  constructor
  · exact claim1_fall_detector.1 0 100 1000 [detOne] trackA
      ⟨0, 30, 10, 20, 1⟩ [] 0 500
      (by norm_num [trackA])
      (by norm_num [tilePeople, detOne])
      rfl rfl
      (by norm_num [tileDrop, tileDyNorm, max_def])
  · exact claim1_fall_detector.2.1 0 100 1000 [detOne] trackB
      ⟨0, 30, 10, 20, 1⟩ [] 40 500 0
      (by norm_num [trackB])
      (by norm_num [tilePeople, detOne])
      rfl rfl rfl
      (by norm_num [tileDrop, tileDyNorm, max_def])
      (by norm_num [tileFlip, tileAspect, trackB, max_def])
      (by norm_num [tileLittleMotion, tileDyNorm, tileEma, tileMotion,
        trackB, max_def, min_def])
      (by norm_num)

/-! ## The process-wide inference lock (`aiBusy` / `withAiLock`)

`withAiLock` checks-and-sets the module-level `aiBusy` flag synchronously
(no await between the check and the set), runs the inference, and resets
the flag in a `finally`.  We model executions as traces of atomic events:
a tick reaching `withAiLock` (`tryStart`), and an inference call finishing
normally or by throwing (`finish`). -/

structure LockSys where
  aiBusy : Bool
  running : List ℕ
deriving DecidableEq

inductive LockEvent
  | tryStart (source : ℕ)
  | finish (source : ℕ) (ok : Bool)

def lockInit : LockSys := { aiBusy := false, running := [] }

/-- One atomic scheduler step.  A `tryStart` when busy returns null to the
caller and changes nothing; otherwise it sets the flag and the inference
of that source begins executing.  A `finish` (normal or thrown, per the
`finally`) removes the running inference and clears the flag; a `finish`
for a source that is not executing cannot happen and is a no-op. -/
def lockStep (sys : LockSys) : LockEvent → LockSys
  | .tryStart s =>
    if sys.aiBusy then sys
    else { aiBusy := true, running := s :: sys.running }
  | .finish s _ =>
    if s ∈ sys.running then
      { aiBusy := false, running := sys.running.erase s }
    else sys

def lockRun (events : List LockEvent) : LockSys :=
  events.foldl lockStep lockInit

/-- The reachable-state invariant: the busy flag is set exactly while one
inference executes. -/
def lockInv (sys : LockSys) : Prop :=
  (sys.aiBusy = false ∧ sys.running = []) ∨
  (sys.aiBusy = true ∧ ∃ s, sys.running = [s])

lemma lockInv_step (sys : LockSys) (e : LockEvent) (h : lockInv sys) :
    lockInv (lockStep sys e) := by
  cases e with
  | tryStart s =>
    rcases h with ⟨hb, hr⟩ | ⟨hb, s0, hr⟩
    · right
      rw [lockStep, if_neg (by simp [hb])]
      exact ⟨rfl, s, by rw [hr]⟩
    · right
      rw [lockStep, if_pos (by simp [hb])]
      exact ⟨hb, s0, hr⟩
  | finish s ok =>
    rcases h with ⟨hb, hr⟩ | ⟨hb, s0, hr⟩
    · rw [lockStep, if_neg (by simp [hr])]
      exact Or.inl ⟨hb, hr⟩
    · by_cases hs : s ∈ sys.running
      · rw [lockStep, if_pos hs]
        left
        refine ⟨rfl, ?_⟩
        rw [hr] at hs ⊢
        simp only [List.mem_singleton] at hs
        rw [hs]
        simp
      · rw [lockStep, if_neg hs]
        exact Or.inr ⟨hb, s0, hr⟩

lemma lockInv_run (events : List LockEvent) : lockInv (lockRun events) := by
  rw [lockRun]
  have h0 : lockInv lockInit := Or.inl ⟨rfl, rfl⟩
  generalize lockInit = sys at h0 ⊢
  induction events generalizing sys with
  | nil => exact h0
  | cons e es ih => exact ih _ (lockInv_step sys e h0)

/-- C9: (a) in every reachable state at most one inference call is
executing; (b) a tick that finds the slot busy acquires nothing and
changes nothing, and the corresponding tile tick leaves its tracking
state untouched while emitting no reading (it just retries later); and
(c) finishing an inference — normally or by throwing — always clears the
busy flag. -/
theorem claim9_inference_lock :
    (∀ events : List LockEvent, (lockRun events).running.length ≤ 1) ∧
    (∀ (sys : LockSys) (s : ℕ), sys.aiBusy = true →
      lockStep sys (.tryStart s) = sys) ∧
    (∀ (minScore outH : ℚ) (now : ℤ) (dets : List Det) (st : TrackState),
      st.cooldownUntil ≤ now →
      tileTick minScore outH now HState.ok true true dets st =
        (st, TickOut.busySkip)) ∧
    (∀ (sys : LockSys) (s : ℕ) (ok : Bool), s ∈ sys.running →
      (lockStep sys (.finish s ok)).aiBusy = false) := by
  refine ⟨?_, ?_, ?_, ?_⟩
  · intro events
    rcases lockInv_run events with ⟨_, hr⟩ | ⟨_, s, hr⟩ <;> simp [hr]
  · intro sys s hb
    rw [lockStep, if_pos (by simp [hb])]
  · intro minScore outH now dets st h
    unfold tileTick
    rw [if_neg (by simp), if_neg (by simp), if_neg (by omega), if_pos rfl]
  · intro sys s ok hs
    rw [lockStep, if_pos hs]

/-- Witness for C9 at concrete inputs: a trace where source 2 collides
with source 1 and source 1's inference throws. -/
theorem claim9_inference_lock_witness :
    (lockRun [.tryStart 1, .tryStart 2, .finish 1 false]).running.length ≤
      1 ∧
    lockStep { aiBusy := true, running := [1] } (.tryStart 2) =
      { aiBusy := true, running := [1] } ∧
    tileTick 0 100 1000 HState.ok true true [detOne] trackA =
      (trackA, TickOut.busySkip) ∧
    (lockStep { aiBusy := true, running := [1] } (.finish 1 false)).aiBusy =
      false := by
  refine ⟨claim9_inference_lock.1 [.tryStart 1, .tryStart 2, .finish 1 false],
    claim9_inference_lock.2.1 { aiBusy := true, running := [1] } 2 rfl,
    claim9_inference_lock.2.2.1 0 100 1000 [detOne] trackA
      (by norm_num [trackA]),
    claim9_inference_lock.2.2.2 { aiBusy := true, running := [1] } 1 false
      (by simp)⟩

/-! ## Standalone behavioral probe (src/lib/aiProbe.ts)

`attachAIProbe` runs an async `tick` loop: the tick checks `disposed` only
at its start; after `await model.detect(...)` resolves it unconditionally
invokes `onResult` and re-arms the timer.  We split the tick at the await:
`aiTickStart` is the synchronous prefix, `aiTickResume` everything after
the model call resolves (its emitted list is the `onResult` calls it
makes). -/

/-- Closure state of one `attachAIProbe` call. -/
structure AiProbeState where
  disposed : Bool
  lastCenterY : Option ℚ
  lastAspect : Option ℚ
  lastTs : Option ℤ
  postDropStillStart : Option ℤ
  cooldownUntil : ℤ
deriving DecidableEq

/-- The `AIProbeResult` payload of `onResult`. -/
structure AIProbeResult where
  personCount : ℕ
  peopleBoxes : List Box
  fall : FallState
  confidence : ℚ
  reasons : List String
  ts : ℤ
  ready : Bool
deriving DecidableEq

def aiInit : AiProbeState :=
  { disposed := false, lastCenterY := Option.none,
    lastAspect := Option.none, lastTs := Option.none,
    postDropStillStart := Option.none, cooldownUntil := 0 }

/-- The detach handle returned by `attachAIProbe` (`disposed = true`). -/
def aiDetach (st : AiProbeState) : AiProbeState := { st with disposed := true }

def aiNotReadyResult (now : ℤ) : AIProbeResult :=
  { personCount := 0, peopleBoxes := [], fall := FallState.none,
    confidence := 0, reasons := ["video_not_ready"], ts := now,
    ready := false }

/-- The result emitted by the catch handler when `drawImage`/`detect`
throw. -/
def aiErrorResult (msg : String) (now : ℤ) : AIProbeResult :=
  { personCount := 0, peopleBoxes := [], fall := FallState.none,
    confidence := 0, reasons := ["ai_error", msg], ts := now,
    ready := true }

/-- Outcome of the synchronous prefix of one tick. -/
inductive AiStart
  | halted
  | notReady (r : AIProbeResult)
  | inflight
deriving DecidableEq

/-- The tick prefix: the only `disposed` check of the whole tick, then the
video-not-ready early emission, then the model call begins. -/
def aiTickStart (st : AiProbeState) (videoReady : Bool) (now : ℤ) :
    AiStart :=
  if st.disposed then AiStart.halted
  else if !videoReady then AiStart.notReady (aiNotReadyResult now)
  else AiStart.inflight

/-- The fall heuristic of aiProbe.ts (base 0.65, drop window 1200ms, fixed
little-motion threshold 0.01, ramp `/3000 * 0.2`, expiry 4000ms), run only
when `enableFall && people.length > 0 && now >= cooldownUntil`; tracking
state is otherwise left untouched (there is no zero-people reset here).
Returns the updated state and `(fall, confidence, reasons)`. -/
def aiFallUpdate (enableFall : Bool) (vh : ℚ) (st : AiProbeState)
    (people : List Box) (now : ℤ) :
    AiProbeState × FallState × ℚ × List String :=
  match people with
  | [] => (st, FallState.none, 0, [])
  | p :: _ =>
    if enableFall = true ∧ st.cooldownUntil ≤ now then
      let centerY := p.y + p.h / 2
      let aspect := p.h / max 1 p.w
      let inner : FallState × ℚ × List String × Option ℤ × ℤ :=
        match st.lastCenterY, st.lastTs with
        | some ly, some lt =>
          let dt := max 1 (now - lt)
          let dyNorm := (centerY - ly) / vh
          let drop := decide ((12/100 : ℚ) < dyNorm ∧ dt < 1200)
          let flip := st.lastAspect.elim false
            (fun la => decide ((105/100 : ℚ) < la ∧ aspect < (95/100 : ℚ)))
          let reasons := (if drop then ["drop:" ++ fixed2 dyNorm] else []) ++
            (if flip then ["posture_flip"] else [])
          let littleMotion := decide (|dyNorm| < (1/100 : ℚ))
          if drop || flip then
            (FallState.risk,
              clamp01 ((65/100) + dyNorm * (18/10) +
                (if flip then (15/100) else 0)),
              reasons, some now, st.cooldownUntil)
          else
            match st.postDropStillStart with
            | some s0 =>
              let stillAge := now - s0
              if littleMotion && decide (900 < stillAge) then
                (FallState.critical,
                  clamp01 ((78/100) + ((stillAge : ℚ) / 3000) * (2/10) +
                    (if aspect < (9/10 : ℚ) then (8/100) else 0)),
                  reasons ++
                    ["still:" ++ toString (round ((stillAge : ℚ) / 1000)) ++
                      "s"],
                  Option.none, now + 12000)
              else if 4000 < stillAge then
                (FallState.none, 0, reasons, Option.none, st.cooldownUntil)
              else (FallState.none, 0, reasons, some s0, st.cooldownUntil)
            | Option.none =>
              (FallState.none, 0, reasons, Option.none, st.cooldownUntil)
        | _, _ =>
          (FallState.none, 0, [], st.postDropStillStart, st.cooldownUntil)
      ({ st with
          lastCenterY := some centerY
          lastAspect := some aspect
          lastTs := some now
          postDropStillStart := inner.2.2.2.1
          cooldownUntil := inner.2.2.2.2 },
        inner.1, inner.2.1, inner.2.2.1)
    else (st, FallState.none, 0, [])

/-- Everything the tick does after `await model.detect(...)` resolves:
filter and sort the detections, run the fall heuristic, and invoke
`onResult` exactly once — the source performs no `disposed` re-check
here, so this happens even if the attachment was detached while the
inference was in flight (the re-armed next tick then halts at
`aiTickStart`). -/
def aiTickResume (minScore : ℚ) (enableFall : Bool) (vh : ℚ)
    (st : AiProbeState) (dets : List Det) (now : ℤ) :
    AiProbeState × List AIProbeResult :=
  let people := tilePeople minScore dets
  let r := aiFallUpdate enableFall vh st people now
  (r.1,
    [{ personCount := people.length, peopleBoxes := people, fall := r.2.1,
        confidence := r.2.2.1, reasons := r.2.2.2, ts := now,
        ready := true }])

lemma eventStep_disposed (opts : ProbeOpts) (e : ProbeEvent)
    (st : ProbeState) (h : st.disposed = true) : (eventStep opts e st).2 = [] := by
  cases e with
  | waiting now => show (emitH _ st).2 = []; unfold emitH; rw [if_pos h]
  | stalled now => show (emitH _ st).2 = []; unfold emitH; rw [if_pos h]
  | playing now => show (emitH _ st).2 = []; unfold emitH; rw [if_pos h]
  | canplay now => show (emitH _ st).2 = []; unfold emitH; rw [if_pos h]
  | mediaError code now =>
    show (emitH _ st).2 = []; unfold emitH; rw [if_pos h]
  | detach => rfl
  | frozenTick now paused ended t =>
    show (frozenTickStep opts now paused ended t st).2 = []
    unfold frozenTickStep
    rw [if_pos h]
  | pixelTick now frame =>
    show (pixelTickStep opts now frame st).2 = []
    unfold pixelTickStep
    rw [if_pos h]

/-- C8 counterexample: detach an `attachAIProbe` attachment while an
inference is in flight; when the model call resolves, the resumed tick
still delivers one `onResult` callback even though `disposed` is set. -/
theorem claim8_detach_counterexample :
    (aiDetach aiInit).disposed = true ∧
    (aiTickResume (45/100) true 100 (aiDetach aiInit) [] 1000).2.length =
      1 := ⟨rfl, rfl⟩

/-- C8 (amended): detach stops every timer and listener of the attachment:
after detach the Health Monitor delivers no reading for any stimulus, the
Scene Probe sampler delivers nothing, and a behavioral-detector tick that
starts after detach halts before doing anything; but a behavioral
inference already in flight at detach time still delivers exactly one
result callback when it resolves (the re-armed tick after it then
halts). -/
theorem claim8_detach :
    (∀ (opts : ProbeOpts) (e : ProbeEvent) (st : ProbeState),
      st.disposed = true → (eventStep opts e st).2 = []) ∧
    (∀ (opts : ProbeOpts) (st : ProbeState),
      (eventStep opts ProbeEvent.detach st).1.disposed = true) ∧
    (∀ st : SceneState, (sceneDetach st).stopped = true) ∧
    (∀ (o : SceneOpts) (s : SceneSample) (st : SceneState),
      st.stopped = true → sceneStep o s st = (st, [])) ∧
    (∀ (st : AiProbeState) (videoReady : Bool) (now : ℤ),
      st.disposed = true → aiTickStart st videoReady now = AiStart.halted) ∧
    (∀ st : AiProbeState, (aiDetach st).disposed = true) ∧
    (∀ (minScore : ℚ) (enableFall : Bool) (vh : ℚ) (st : AiProbeState)
        (dets : List Det) (now : ℤ),
      (aiTickResume minScore enableFall vh st dets now).2.length = 1) := by
  refine ⟨eventStep_disposed, fun opts st => rfl, fun st => rfl, ?_,
    ?_, fun st => rfl, fun minScore enableFall vh st dets now => rfl⟩
  · intro o s st h
    unfold sceneStep
    rw [if_pos h]
  · intro st videoReady now h
    unfold aiTickStart
    rw [if_pos h]

/-- Witness for C8 (amended) at concrete inputs. -/
theorem claim8_detach_witness :
    (eventStep pixelOpts (ProbeEvent.playing 5)
      { stAttached with disposed := true }).2 = [] ∧
    sceneStep ({} : SceneOpts) SceneSample.notReady (sceneDetach sceneInit) =
      (sceneDetach sceneInit, []) ∧
    aiTickStart (aiDetach aiInit) true 7 = AiStart.halted := by
  refine ⟨claim8_detach.1 pixelOpts (ProbeEvent.playing 5)
      { stAttached with disposed := true } rfl,
    claim8_detach.2.2.2.1 ({} : SceneOpts) SceneSample.notReady
      (sceneDetach sceneInit) rfl,
    claim8_detach.2.2.2.2.1 (aiDetach aiInit) true 7 rfl⟩

end PatientCare
